import Mathlib

/-!
Verification of the job-processing core of the server-dashboard repository:
the job record model (`src/jobs/models.py`), the file-backed job store
(`src/jobs/store.py`) and the background worker (`src/jobs/worker.py`).
Python values are embedded shallowly: JSON documents become an inductive
`Json` type, the dataclass `Job` becomes a structure, the store becomes an
association list from job id to the serialized record, and the worker's
side-effecting pipeline becomes a function over an explicit environment
describing every external interaction (HTTP, backend client, clock).
-/

/-- JSON values as produced by Python's `json` module for the fields the
repository serializes (numbers restricted to integers, which is all the
job record ever stores). -/
inductive Json where
  | null
  | bool (b : Bool)
  | num (n : Int)
  | str (s : String)
  | arr (elems : List Json)
  | obj (fields : List (String × Json))

/-- `JobStatus` from `src/jobs/models.py`: the six states of a job. -/
inductive JobStatus where
  | queued
  | running
  | completed
  | failed
  | timed_out
  | canceled
deriving DecidableEq

/-- The string value of each status (`JobStatus(str, Enum)` member values). -/
def statusValue : JobStatus → String
  | .queued => "queued"
  | .running => "running"
  | .completed => "completed"
  | .failed => "failed"
  | .timed_out => "timed_out"
  | .canceled => "canceled"

/-- Inverse of `statusValue`, modelling `JobStatus(s)` on a string: succeeds
exactly on the six member values. -/
def statusFromValue (s : String) : Option JobStatus :=
  if s = "queued" then some .queued
  else if s = "running" then some .running
  else if s = "completed" then some .completed
  else if s = "failed" then some .failed
  else if s = "timed_out" then some .timed_out
  else if s = "canceled" then some .canceled
  else none

/-- The `Job` dataclass from `src/jobs/models.py`, field for field.
`params` is the open key/value bag (a JSON object). -/
structure Job where
  id : String
  status : JobStatus
  created_at : String
  updated_at : String
  prompt : String
  input_image_url : Option String := none
  prompt_id : Option String := none
  progress : Nat := 0
  files : List String := []
  error : Option String := none
  telegram_chat_id : Option String := none
  webhook_url : Option String := none
  params : List (String × Json) := []

/-- Python `None`/string fields serialize to JSON null/string. -/
def optStrJson : Option String → Json
  | none => .null
  | some s => .str s

/-- `Job.to_dict`: `asdict(self)` in dataclass field order, with `status`
replaced by its string value. -/
def Job.toJson (j : Job) : Json :=
  .obj [ ("id", .str j.id),
         ("status", .str (statusValue j.status)),
         ("created_at", .str j.created_at),
         ("updated_at", .str j.updated_at),
         ("prompt", .str j.prompt),
         ("input_image_url", optStrJson j.input_image_url),
         ("prompt_id", optStrJson j.prompt_id),
         ("progress", .num (Int.ofNat j.progress)),
         ("files", .arr (j.files.map Json.str)),
         ("error", optStrJson j.error),
         ("telegram_chat_id", optStrJson j.telegram_chat_id),
         ("webhook_url", optStrJson j.webhook_url),
         ("params", .obj j.params) ]

/-- Field lookup in a decoded JSON object (Python `dict` access). -/
def getField (l : List (String × Json)) (k : String) : Option Json :=
  List.lookup k l

/-- Read a required string field. -/
def asStr : Json → Option String
  | .str s => some s
  | _ => none

/-- Read an optional string field: absent or null means `None`
(the dataclass default). -/
def asOptStr : Option Json → Option (Option String)
  | none => some none
  | some .null => some none
  | some (.str s) => some (some s)
  | some _ => none

/-- Read the `progress` field: absent means the default 0; a JSON integer is
accepted when non-negative (the record only ever stores 0–100). -/
def asNat : Option Json → Option Nat
  | none => some 0
  | some (.num (Int.ofNat n)) => some n
  | some (.num (Int.negSucc _)) => none
  | some _ => none

/-- Decode a JSON array of strings. -/
def strList : List Json → Option (List String)
  | [] => some []
  | .str s :: rest => (strList rest).map (s :: ·)
  | _ => none

/-- Read the `files` field: absent means the default empty list. -/
def asStrList : Option Json → Option (List String)
  | none => some []
  | some (.arr es) => strList es
  | some _ => none

/-- Read the `params` field: absent means the default empty dict. -/
def asObj : Option Json → Option (List (String × Json))
  | none => some []
  | some (.obj l) => some l
  | some _ => none

/-- `Job.from_dict`: rebuild a `Job` from a decoded JSON object, converting
the `status` string back through the enum. Python's `cls(**d)` performs no
runtime type validation; the model additionally requires each present field
to have the type `to_dict` produces, which agrees with Python on every
payload `to_dict`/`json.dump` can emit. -/
def Job.fromJson : Json → Option Job
  | .obj l => do
      let id ← (getField l "id").bind asStr
      let stS ← (getField l "status").bind asStr
      let status ← statusFromValue stS
      let created ← (getField l "created_at").bind asStr
      let updated ← (getField l "updated_at").bind asStr
      let prompt ← (getField l "prompt").bind asStr
      let iiu ← asOptStr (getField l "input_image_url")
      let pid ← asOptStr (getField l "prompt_id")
      let prog ← asNat (getField l "progress")
      let fs ← asStrList (getField l "files")
      let err ← asOptStr (getField l "error")
      let tcid ← asOptStr (getField l "telegram_chat_id")
      let whu ← asOptStr (getField l "webhook_url")
      let ps ← asObj (getField l "params")
      pure { id := id, status := status, created_at := created,
             updated_at := updated, prompt := prompt, input_image_url := iiu,
             prompt_id := pid, progress := prog, files := fs, error := err,
             telegram_chat_id := tcid, webhook_url := whu, params := ps }
  | _ => none

theorem statusFromValue_statusValue (s : JobStatus) :
    statusFromValue (statusValue s) = some s := by
  cases s <;> rfl

theorem strList_map_str (xs : List String) :
    strList (xs.map Json.str) = some xs := by
  induction xs with
  | nil => rfl
  | cons x xs ih => simp [strList, ih]

theorem Job.fromJson_toJson (j : Job) : Job.fromJson (Job.toJson j) = some j := by
  cases j with
  | mk id status ca ua pr iiu pid prog fs err tcid whu ps =>
    simp only [Job.toJson, Job.fromJson, getField, List.lookup, optStrJson]
    cases iiu <;> cases pid <;> cases err <;> cases tcid <;> cases whu <;>
      simp [asStr, asOptStr, asNat, asStrList, asObj, strList_map_str,
            statusFromValue_statusValue]

/-- The on-disk store of `src/jobs/store.py`, abstracted to the map it
maintains from job id to the serialized record (`meta.json` content).
A fresh save shadows any prior entry for the same id, matching the
overwriting file write. -/
abbrev Store := List (String × Json)

/-- `JobStore.save`: serialize the full record and replace the prior file. -/
def JobStore.save (st : Store) (j : Job) : Store :=
  (j.id, Job.toJson j) :: st

/-- `JobStore.load`: read and deserialize the record, `none` when the
metadata file does not exist. -/
def JobStore.load (st : Store) (id : String) : Option Job :=
  (List.lookup id st).bind Job.fromJson

/-- The partial field patches `JobStore.update` is called with. Every key
the worker ever passes is a real `Job` attribute; passing a key that is not
an attribute would be silently ignored by the `hasattr` guard in the source,
so the model only carries the known fields. -/
structure Patch where
  status : Option JobStatus := none
  progress : Option Nat := none
  error : Option String := none
  prompt_id : Option String := none
  files : Option (List String) := none

/-- Apply a patch: `setattr` for each supplied field. -/
def applyPatch (j : Job) (p : Patch) : Job :=
  { j with
    status := p.status.getD j.status,
    progress := p.progress.getD j.progress,
    error := match p.error with | some e => some e | none => j.error,
    prompt_id := match p.prompt_id with | some x => some x | none => j.prompt_id,
    files := p.files.getD j.files }

/-- `JobStore.update`: load, patch the supplied fields, always refresh
`updated_at`, save; `(none, unchanged store)` when the record is missing. -/
def JobStore.update (st : Store) (id : String) (p : Patch) (now : String) :
    Option Job × Store :=
  match JobStore.load st id with
  | none => (none, st)
  | some j =>
      let j2 := { applyPatch j p with updated_at := now }
      (some j2, JobStore.save st j2)

/-- Shared helper: loading right after a save returns the saved record. -/
theorem JobStore.load_save (st : Store) (j : Job) :
    JobStore.load (JobStore.save st j) j.id = some j := by
  simp [JobStore.save, JobStore.load, List.lookup, Job.fromJson_toJson]

/-- C4: for every job record, `save` then `load` on its id returns a record
equal to the one saved in every field. -/
theorem save_load_roundtrip (st : Store) (j : Job) :
    JobStore.load (JobStore.save st j) j.id = some j :=
  JobStore.load_save st j

/-- C7: `update` on an id whose record does not exist returns not-found and
leaves the store exactly as it was. -/
theorem update_missing_id (st : Store) (id : String) (p : Patch) (now : String)
    (h : JobStore.load st id = none) :
    JobStore.update st id p now = (none, st) := by
  simp [JobStore.update, h]

/-- Witness for C7 at a concrete input: the empty store has no record for
id `a`, and updating it returns not-found with the store unchanged. -/
theorem update_missing_id_witness :
    JobStore.update [] "a" {} "t0" = (none, ([] : Store)) :=
  update_missing_id [] "a" {} "t0" rfl

/-!
## File-operation level of `JobStore.save`

For the atomicity question the map-level view is too coarse: we also embed
`save` as the ordered list of primitive file operations it performs
(`src/jobs/store.py` lines 37-46: three `mkdir`s, then `open(meta_path, 'w')`
which truncates, then the `json.dump` write, then close). The `rename`
operation is part of the vocabulary because the specification asserts a
write-temp-then-rename scheme; the source never performs one.
-/

inductive FileOp where
  | mkdirp (p : String)
  | openTrunc (p : String)
  | writeAll (p : String) (content : String)
  | closeF (p : String)
  | rename (src dst : String)
deriving DecidableEq

mutual

/-- Rendering of a JSON value to text, as `json.dump` writes it
(whitespace differences aside, which do not matter for any property here). -/
def renderJson : Json → String
  | .null => "null"
  | .bool true => "true"
  | .bool false => "false"
  | .num n => toString n
  | .str s => "\"" ++ s ++ "\""
  | .arr es => "[" ++ renderList es ++ "]"
  | .obj l => "\x7b" ++ renderObj l ++ "\x7d"

def renderList : List Json → String
  | [] => ""
  | [e] => renderJson e
  | e :: e2 :: rest => renderJson e ++ ", " ++ renderList (e2 :: rest)

def renderObj : List (String × Json) → String
  | [] => ""
  | [(k, v)] => "\"" ++ k ++ "\": " ++ renderJson v
  | (k, v) :: kv2 :: rest =>
      "\"" ++ k ++ "\": " ++ renderJson v ++ ", " ++ renderObj (kv2 :: rest)

end

/-- The text `json.dump(job.to_dict(), f)` writes for a record. -/
def serializeJob (j : Job) : String := renderJson (Job.toJson j)

/-- Path of a job's metadata file (`storage_root/<id>/meta.json`). -/
def metaPath (root : String) (id : String) : String :=
  root ++ "/" ++ id ++ "/meta.json"

/-- The exact operation sequence of `JobStore.save` on disk. -/
def saveTrace (root : String) (j : Job) : List FileOp :=
  [ .mkdirp (root ++ "/" ++ j.id),
    .mkdirp (root ++ "/" ++ j.id ++ "/input"),
    .mkdirp (root ++ "/" ++ j.id ++ "/output"),
    .openTrunc (metaPath root j.id),
    .writeAll (metaPath root j.id) (serializeJob j),
    .closeF (metaPath root j.id) ]

/-- A file system: path contents, `none` when the file is absent. -/
abbrev FileSys := String → Option String

/-- Effect of one file operation. `openTrunc` makes the truncation visible
immediately (semantics of `open(path, 'w')`). -/
def applyOp (fs : FileSys) : FileOp → FileSys
  | .mkdirp _ => fs
  | .openTrunc p => fun q => if q = p then some "" else fs q
  | .writeAll p s => fun q => if q = p then some (((fs p).getD "") ++ s) else fs q
  | .closeF _ => fs
  | .rename src dst => fun q =>
      if q = dst then fs src else if q = src then none else fs q

/-- Run a list of file operations in order. -/
def runOps (fs : FileSys) : List FileOp → FileSys
  | [] => fs
  | op :: rest => runOps (applyOp fs op) rest

theorem serializeJob_ne_empty (j : Job) : serializeJob j ≠ "" := by
  intro h
  have h2 : (serializeJob j).data = [] := by rw [h]
  simp only [serializeJob, Job.toJson, renderJson, String.data_append] at h2
  simp at h2

/-- A concrete job record used for counterexamples. -/
def exJob : Job :=
  { id := "j1", status := .queued, created_at := "t0", updated_at := "t0",
    prompt := "hello" }

/-- C3 counterexample: on a concrete record, the operation trace of
`JobStore.save` contains no rename at all (so the record file is not
replaced by a write-temp-then-rename), and a reader of the record file
after the fourth operation (the truncating open) observes content
`some ""`, which is not the serialized record — a partially written
record is observable, contradicting the claim. -/
theorem save_no_rename_counterexample :
    (∀ s d, FileOp.rename s d ∉ saveTrace "data" exJob) ∧
    runOps (fun _ => none) ((saveTrace "data" exJob).take 4)
        (metaPath "data" "j1") = some "" ∧
    serializeJob exJob ≠ "" := by
  refine ⟨?_, rfl, serializeJob_ne_empty exJob⟩
  intro s d h
  simp [saveTrace] at h

/-- C3 amended: `JobStore.save` rewrites the record file in place — its
operation trace has no rename; after the truncating open the file reads as
empty, and only after the final write does it hold the full serialized
record. A concurrent reader between those points observes a partial
record. -/
theorem save_writes_in_place (root : String) (j : Job) (fs₀ : FileSys) :
    (∀ s d, FileOp.rename s d ∉ saveTrace root j) ∧
    runOps fs₀ ((saveTrace root j).take 4) (metaPath root j.id) = some "" ∧
    runOps fs₀ (saveTrace root j) (metaPath root j.id) =
      some (serializeJob j) ∧
    serializeJob j ≠ "" := by
  refine ⟨?_, ?_, ?_, serializeJob_ne_empty j⟩
  · intro s d h
    simp [saveTrace] at h
  · simp [saveTrace, runOps, applyOp]
  · simp [saveTrace, runOps, applyOp]

/-!
## The worker pipeline (`src/jobs/worker.py`)

`_process_job` is embedded as a function over an explicit environment that
resolves every external interaction: HTTP fetches, the Generation Backend
client, the clock observed by the polling loop, and the delivery targets.
Each raising Python call becomes an `Except String` value in the
environment; the per-job `try`/`except` boundary becomes the match on those
values, mapping `TimeoutError` to `TIMED_OUT` and any other exception to
`FAILED`, exactly as the source does. The polling loop, which is unbounded
in the source, is run on explicit fuel; a `none` result means the supplied
fuel did not cover the run, so every theorem about a completed run carries
the corresponding `= some result` hypothesis.
-/

/-- The worker's cumulative counters (`self.stats`). -/
structure Stats where
  success : Nat := 0
  failed : Nat := 0
  timed_out : Nat := 0
  canceled : Nat := 0
deriving DecidableEq

/-- One output file descriptor in a backend history entry. -/
structure FileInfo where
  filename : Option String
  subfolder : String := ""
  ftype : String := "output"

/-- Per-node output lists; a key absent from the Python dict is the empty
list (both iterate into nothing). -/
structure NodeOutput where
  videos : List FileInfo := []
  gifs : List FileInfo := []
  images : List FileInfo := []
  audio : List FileInfo := []

/-- The `outputs` dict of a history entry: node id to node outputs. -/
abbrev Outputs := List (String × NodeOutput)

/-- What one `get_history` call can report for the run. -/
inductive HistoryRes where
  | fetchError
  | missing
  | statusError (msg : String)
  | entry (outputs : Outputs)

/-- The polling loop's view of the world at each iteration: elapsed seconds
since pipeline start, whether the freshly loaded record has status
`CANCELED` (set by the external cancellation endpoint), and the history
response. -/
structure PollEnv where
  elapsed : Nat → Nat
  canceledSeen : Nat → Bool
  history : Nat → HistoryRes

/-- How a poll run ends (`_poll_for_outputs`). A mid-poll cancellation is
`raise Exception("Job was canceled")` in the source — a generic exception,
not a distinct outcome class. -/
inductive PollRes where
  | timedOutAt (e : Nat)
  | canceledExc
  | comfyError (msg : String)
  | found (outs : Outputs)

/-- One iteration of the polling loop, in source order: timeout check,
cancellation check, history fetch (transient failure retried), presence
check, backend error check, outputs check. `none` means sleep and retry. -/
def pollIter (pe : PollEnv) (tmo : Nat) (i : Nat) : Option PollRes :=
  if tmo < pe.elapsed i then some (.timedOutAt (pe.elapsed i))
  else if pe.canceledSeen i then some .canceledExc
  else match pe.history i with
    | .fetchError => none
    | .missing => none
    | .statusError m => some (.comfyError m)
    | .entry outs => if outs.isEmpty then none else some (.found outs)

/-- The polling loop on explicit fuel, starting at iteration `i`. -/
def pollForOutputs (pe : PollEnv) (tmo : Nat) : Nat → Nat → Option PollRes
  | 0, _ => none
  | fuel + 1, i =>
      match pollIter pe tmo i with
      | some r => some r
      | none => pollForOutputs pe tmo fuel (i + 1)

/-- The full environment for one `_process_job` run. -/
structure ProcEnv where
  httpFetch : Except String Unit := .ok ()
  inputExists : Bool := false
  telegramFiles : List String := []
  upload : Except String String := .ok "input.png"
  loadBaseSong : Except String String := .ok ""
  loadBaseImage : Except String String := .ok ""
  queuePrompt : String → Except String String := fun _ => .ok "pid"
  poll : PollEnv
  download : String → String → String → Except String Unit := fun _ _ _ => .ok ()
  fuel : Nat := 1
  nowAt : Nat → String := fun _ => ""
  hasTelegramFunc : Bool := false
  telegramSend : Job → Except String Unit := fun _ => .ok ()
  webhookPost : String → Json → Except String Unit := fun _ _ => .ok ()

/-- Whether the first list leads with the second (Python `str.startswith`,
over the character lists of the strings, so that every concrete run is
kernel-computable). -/
def leadsWith : List Char → List Char → Bool
  | _, [] => true
  | [], _ :: _ => false
  | c :: cs, d :: ds => c = d && leadsWith cs ds

/-- Python `str.startswith` on strings. -/
def strStartsWith (s p : String) : Bool := leadsWith s.data p.data

/-- Replace every non-overlapping occurrence of `pat`, left to right, with
`rep`; fuel-driven structural recursion (the fuel is the input length, which
always suffices). -/
def replaceGo (pat rep : List Char) : Nat → List Char → List Char
  | 0, l => l
  | _ + 1, [] => []
  | fuel + 1, c :: cs =>
      if leadsWith (c :: cs) pat then
        rep ++ replaceGo pat rep fuel (List.drop (pat.length - 1) cs)
      else c :: replaceGo pat rep fuel cs

/-- Python `str.replace` for a non-empty pattern (the only way the source
calls it; the empty pattern is returned unchanged). -/
def strReplace (s pat rep : String) : String :=
  if pat.data = [] then s
  else ⟨replaceGo pat.data rep.data s.data.length s.data⟩

/-- The AttributeError Python raises when `_stage_input` dereferences an
absent `input_image_url` (`job.input_image_url.startswith(...)` on `None`);
its text becomes the job's `error` through `str(e)`. -/
def noneUrlMsg : String := "NoneType object has no attribute startswith"

/-- `_stage_input`: telegram-scheme URLs are looked up among already staged
files; other URLs are fetched over HTTP unless `input.png` is already
present (idempotent re-run). -/
def stageInput (env : ProcEnv) (j : Job) : Except String String :=
  match j.input_image_url with
  | none => .error noneUrlMsg
  | some url =>
      if strStartsWith url "telegram://" then
        match env.telegramFiles with
        | p :: _ => .ok p
        | [] => .error "Telegram image not found in input dir"
      else
        if env.inputExists then .ok "input.png"
        else
          match env.httpFetch with
          | .error m => .error m
          | .ok _ => .ok "input.png"

/-- Quote/newline escaping from `comfy/workflow.py`. -/
def escapeText (s : String) : String :=
  strReplace (strReplace s "\"" "\\\"") "\n" "\\n"

/-- `apply_overrides`: substitute the uploaded filename (when truthy) and
the escaped prompt into the template text. -/
def applyOverrides (tmpl : String) (prompt : String)
    (inputFilename : Option String) : String :=
  let t1 := match inputFilename with
    | some f => if f = "" then tmpl else strReplace tmpl "IMAGE_PLACEHOLDER" f
    | none => tmpl
  strReplace t1 "PLACEHOLDER" (escapeText prompt)

/-- `apply_song_overrides`: substitute description and lyrics. -/
def applySongOverrides (tmpl desc lyr : String) : String :=
  strReplace (strReplace tmpl "DESCRIPTION-OF-SONG" (escapeText desc))
    "LYRICS-OF-SONG" (escapeText lyr)

/-- `params.get("workflow_type", "im2vid") == "song"`: true exactly when
the key holds the string `song` (absent or non-string values compare
unequal). -/
def workflowIsSong (ps : List (String × Json)) : Bool :=
  match List.lookup "workflow_type" ps with
  | some (.str s) => s = "song"
  | _ => false

/-- `params.get(key, "")` for the string parameters of the song branch. -/
def getStrParam (ps : List (String × Json)) (k : String) : String :=
  match List.lookup k ps with
  | some (.str s) => s
  | _ => ""

/-- Worker-side running state: the store, the count of updates done so far
(timestamps are drawn from `nowAt` by this count), and the list of records
persisted so far, oldest first. -/
structure StRun where
  st : Store
  k : Nat
  tr : List Job

/-- One `self.store.update(...)` call made by the worker. A missing record
makes `update` a silent no-op (the source discards the return value). -/
def doUpdate (env : ProcEnv) (id : String) (p : Patch) (r : StRun) : StRun :=
  let res := JobStore.update r.st id p (env.nowAt r.k)
  { st := res.2, k := r.k + 1, tr := r.tr ++ res.1.toList }

/-- Download every reported file of a list of descriptors in order,
stopping with the raised error if one download fails. -/
def downloadFiles (dl : String → String → String → Except String Unit) :
    List FileInfo → Except String (List String)
  | [] => .ok []
  | fi :: rest =>
      match fi.filename with
      | none => downloadFiles dl rest
      | some f =>
          match dl f fi.subfolder fi.ftype with
          | .error m => .error m
          | .ok _ => (downloadFiles dl rest).map (f :: ·)

/-- `_download_outputs` for one node: the four type keys in source order. -/
def downloadNode (dl : String → String → String → Except String Unit)
    (no : NodeOutput) : Except String (List String) :=
  downloadFiles dl (no.videos ++ no.gifs ++ no.images ++ no.audio)

/-- `_download_outputs` over all nodes, collecting filenames in report
order. -/
def downloadOutputs (dl : String → String → String → Except String Unit) :
    Outputs → Except String (List String)
  | [] => .ok []
  | (_, no) :: rest =>
      match downloadNode dl no with
      | .error m => .error m
      | .ok fs1 => (downloadOutputs dl rest).map (fs1 ++ ·)

/-- Python truthiness of the optional delivery target strings. -/
def truthy : Option String → Bool
  | none => false
  | some s => s ≠ ""

/-- Observable delivery attempts (steps 8 and 9 of the pipeline). -/
inductive DeliveryEvent where
  | telegramSent (id : String)
  | telegramFailed (msg : String)
  | webhookSent (id : String)
  | webhookFailed (msg : String)
deriving DecidableEq

/-- The summary payload `_call_webhook` posts, built from the freshly
loaded record: `{job_id, status, files, error}`. -/
def webhookPayload (uj : Job) : Json :=
  Json.obj
    [ ("job_id", .str uj.id),
      ("status", .str (statusValue uj.status)),
      ("files", .arr (uj.files.map Json.str)),
      ("error", optStrJson uj.error) ]

/-- Steps 8-9: the Telegram notification and the webhook call, both under
their own `try`/`except` so a failure produces only a logged event and
never touches the store or the job's terminal status. -/
def deliver (env : ProcEnv) (j : Job) (st : Store) : List DeliveryEvent :=
  (if env.hasTelegramFunc && truthy j.telegram_chat_id then
    match JobStore.load st j.id with
    | none => []
    | some uj =>
        match env.telegramSend uj with
        | .ok _ => [.telegramSent uj.id]
        | .error m => [.telegramFailed m]
  else []) ++
  (if truthy j.webhook_url then
    match JobStore.load st j.id with
    | none => []
    | some uj =>
        match env.webhookPost (j.webhook_url.getD "") (webhookPayload uj) with
        | .ok _ => [.webhookSent uj.id]
        | .error m => [.webhookFailed m]
  else [])

/-- How one processed job ends. -/
inductive Outcome where
  | admitCanceled
  | completedJob (fs : List String)
  | timedOutJob (e : Nat)
  | failedJob (msg : String)
deriving DecidableEq

/-- Result of one `_process_job` run: final store, counters, the records
persisted by the worker in order, the delivery events, and the outcome. -/
structure ProcResult where
  st : Store
  stats : Stats
  tr : List Job
  events : List DeliveryEvent
  outcome : Outcome

/-- The terminal mapping of a generic exception: persist `FAILED` with the
exception text and bump the failed counter. -/
def finishFail (env : ProcEnv) (id : String) (msg : String) (r : StRun)
    (s : Stats) : ProcResult :=
  let r2 := doUpdate env id { status := some .failed, error := some msg } r
  ⟨r2.st, { s with failed := s.failed + 1 }, r2.tr, [], .failedJob msg⟩

/-- The `TimeoutError` message text (float formatting elided). -/
def timeoutMsg (e : Nat) : String :=
  "Job timed out after " ++ toString e ++ "s"

/-- Step 3 of the pipeline: build the workflow document, with the progress
checkpoints of each sub-step. On failure the raised message is returned
together with the state at the raise point. -/
def buildPhase (env : ProcEnv) (j : Job) (r0 : StRun) :
    Except (StRun × String) (StRun × String) :=
  if workflowIsSong j.params then
    match env.loadBaseSong with
    | .error m => .error (r0, m)
    | .ok tmpl =>
        let wf := applySongOverrides tmpl (getStrParam j.params "song_description")
          (getStrParam j.params "song_lyrics")
        .ok (doUpdate env j.id { progress := some 40 } r0, wf)
  else
    match stageInput env j with
    | .error m => .error (r0, m)
    | .ok _path =>
        let r1 := doUpdate env j.id { progress := some 20 } r0
        match env.upload with
        | .error m => .error (r1, m)
        | .ok upName =>
            let r2 := doUpdate env j.id { progress := some 30 } r1
            match env.loadBaseImage with
            | .error m => .error (r2, m)
            | .ok tmpl =>
                let wf := applyOverrides tmpl j.prompt (some upName)
                .ok (doUpdate env j.id { progress := some 40 } r2, wf)

/-- `_process_job`: the admission check on the dequeued snapshot, the
RUNNING persist, the try region over build/submit/poll/download/complete/
deliver, and the exception boundary mapping `TimeoutError` to `TIMED_OUT`
and every other exception to `FAILED`. `none` only when the poll fuel runs
out. -/
def processJob (env : ProcEnv) (tmo : Nat) (j : Job) (st0 : Store)
    (s : Stats) : Option ProcResult :=
  if j.status = JobStatus.canceled then
    some ⟨st0, { s with canceled := s.canceled + 1 }, [], [], .admitCanceled⟩
  else
    let r0 := doUpdate env j.id { status := some .running, progress := some 10 }
      ⟨st0, 0, []⟩
    match buildPhase env j r0 with
    | .error (r1, m) => some (finishFail env j.id m r1 s)
    | .ok (r1, wf) =>
        match env.queuePrompt wf with
        | .error m => some (finishFail env j.id m r1 s)
        | .ok pid =>
            let r2 := doUpdate env j.id
              { prompt_id := some pid, progress := some 50 } r1
            match pollForOutputs env.poll tmo env.fuel 0 with
            | none => none
            | some (.timedOutAt e) =>
                let r3 := doUpdate env j.id
                  { status := some .timed_out, error := some (timeoutMsg e) } r2
                some ⟨r3.st, { s with timed_out := s.timed_out + 1 }, r3.tr,
                  [], .timedOutJob e⟩
            | some .canceledExc =>
                some (finishFail env j.id "Job was canceled" r2 s)
            | some (.comfyError m) =>
                some (finishFail env j.id ("ComfyUI error: " ++ m) r2 s)
            | some (.found outs) =>
                let r3 := doUpdate env j.id { progress := some 80 } r2
                match downloadOutputs env.download outs with
                | .error m => some (finishFail env j.id m r3 s)
                | .ok fs =>
                    let r4 := doUpdate env j.id { progress := some 90 } r3
                    let r5 := doUpdate env j.id
                      { status := some .completed, progress := some 100,
                        files := some fs } r4
                    some ⟨r5.st, { s with success := s.success + 1 }, r5.tr,
                      deliver env j r5.st, .completedJob fs⟩

/-!
## Lemmas about single store updates made by the worker
-/

/-- The record a worker-side `update` writes: the loaded record, patched,
with `updated_at` refreshed. -/
def patched (j0 : Job) (p : Patch) (now : String) : Job :=
  { applyPatch j0 p with updated_at := now }

theorem doUpdate_spec (env : ProcEnv) (id : String) (p : Patch) (r : StRun)
    (j0 : Job) (h : JobStore.load r.st id = some j0) (hid : j0.id = id) :
    doUpdate env id p r =
      ⟨JobStore.save r.st (patched j0 p (env.nowAt r.k)), r.k + 1,
        r.tr ++ [patched j0 p (env.nowAt r.k)]⟩ ∧
    JobStore.load (JobStore.save r.st (patched j0 p (env.nowAt r.k))) id =
      some (patched j0 p (env.nowAt r.k)) ∧
    (patched j0 p (env.nowAt r.k)).id = id := by
  have hid2 : (patched j0 p (env.nowAt r.k)).id = id := hid
  refine ⟨?_, ?_, hid2⟩
  · simp [doUpdate, JobStore.update, h, patched]
  · have h2 := JobStore.load_save r.st (patched j0 p (env.nowAt r.k))
    rwa [hid2] at h2

theorem doUpdate_missing (env : ProcEnv) (id : String) (p : Patch) (r : StRun)
    (h : JobStore.load r.st id = none) :
    doUpdate env id p r = ⟨r.st, r.k + 1, r.tr⟩ := by
  simp [doUpdate, JobStore.update, h]

/-!
## C10: exactly one counter per processed job
-/

/-- The counter bump each outcome performs. -/
def bumpFor : Outcome → Stats → Stats
  | .admitCanceled, s => { s with canceled := s.canceled + 1 }
  | .completedJob _, s => { s with success := s.success + 1 }
  | .timedOutJob _, s => { s with timed_out := s.timed_out + 1 }
  | .failedJob _, s => { s with failed := s.failed + 1 }

theorem processJob_stats (env : ProcEnv) (tmo : Nat) (j : Job) (st0 : Store)
    (s : Stats) (res : ProcResult) (h : processJob env tmo j st0 s = some res) :
    res.stats = bumpFor res.outcome s := by
  simp only [processJob] at h
  split at h
  · injection h with h2; subst h2; rfl
  · split at h
    · injection h with h2; subst h2; rfl
    · split at h
      · injection h with h2; subst h2; rfl
      · split at h
        · exact Option.noConfusion h
        · injection h with h2; subst h2; rfl
        · injection h with h2; subst h2; rfl
        · injection h with h2; subst h2; rfl
        · split at h
          · injection h with h2; subst h2; rfl
          · injection h with h2; subst h2; rfl

/-- C10: for every dequeued job (its processing completing within the poll
fuel, with store operations modelled as succeeding), exactly one of the
four cumulative counters is incremented, and by exactly one. -/
theorem counters_exactly_one (env : ProcEnv) (tmo : Nat) (j : Job)
    (st0 : Store) (s : Stats) (res : ProcResult)
    (h : processJob env tmo j st0 s = some res) :
    res.stats = { s with success := s.success + 1 } ∨
    res.stats = { s with failed := s.failed + 1 } ∨
    res.stats = { s with timed_out := s.timed_out + 1 } ∨
    res.stats = { s with canceled := s.canceled + 1 } := by
  have hs := processJob_stats env tmo j st0 s res h
  cases h2 : res.outcome
  · exact Or.inr (Or.inr (Or.inr (by rw [h2] at hs; exact hs)))
  · exact Or.inl (by rw [h2] at hs; exact hs)
  · exact Or.inr (Or.inr (Or.inl (by rw [h2] at hs; exact hs)))
  · exact Or.inr (Or.inl (by rw [h2] at hs; exact hs))

/-- A minimal environment for concrete runs. -/
def wPollQuiet : PollEnv :=
  { elapsed := fun _ => 0, canceledSeen := fun _ => false,
    history := fun _ => .missing }

/-- A job whose dequeued snapshot is already `CANCELED`. -/
def wJobCanceled : Job :=
  { id := "w1", status := .canceled, created_at := "t0", updated_at := "t0",
    prompt := "p" }

/-- Witness for C10 at a concrete input: an admission-canceled job bumps
exactly the canceled counter. -/
theorem counters_exactly_one_witness :
    ({ st := [], stats := { canceled := 1 }, tr := [], events := [],
       outcome := .admitCanceled } : ProcResult).stats =
        ({ success := 0 + 1 } : Stats) ∨
    ({ st := [], stats := { canceled := 1 }, tr := [], events := [],
       outcome := .admitCanceled } : ProcResult).stats =
        ({ failed := 0 + 1 } : Stats) ∨
    ({ st := [], stats := { canceled := 1 }, tr := [], events := [],
       outcome := .admitCanceled } : ProcResult).stats =
        ({ timed_out := 0 + 1 } : Stats) ∨
    ({ st := [], stats := { canceled := 1 }, tr := [], events := [],
       outcome := .admitCanceled } : ProcResult).stats =
        ({ canceled := 0 + 1 } : Stats) :=
  counters_exactly_one { poll := wPollQuiet } 600 wJobCanceled [] {}
    ⟨[], { canceled := 1 }, [], [], .admitCanceled⟩ rfl

/-!
## C1: cancellation detected mid-poll

The source raises a plain `Exception("Job was canceled")` when the reloaded
record shows `CANCELED`, and the per-job boundary maps every non-timeout
exception to `FAILED`. The run below evaluates the code on a job whose
persisted status is set to `CANCELED` externally while the worker polls:
the terminal status is `FAILED`, not `CANCELED`, and the failed counter is
bumped instead of the canceled one.
-/

/-- A poll view in which every reload of the record shows `CANCELED`
(the external cancellation endpoint acted after submission). -/
def cPollCanceled : PollEnv :=
  { elapsed := fun _ => 5, canceledSeen := fun _ => true,
    history := fun _ => .missing }

def cEnvCancel : ProcEnv :=
  { poll := cPollCanceled, upload := .ok "up.png",
    loadBaseImage := .ok "W PLACEHOLDER",
    queuePrompt := fun _ => .ok "pid1", fuel := 3, nowAt := fun _ => "t1" }

def cJobHttp : Job :=
  { id := "j1", status := .queued, created_at := "t0", updated_at := "t0",
    prompt := "p", input_image_url := some "https://example.com/a.png" }

def cStoreHttp : Store := JobStore.save [] cJobHttp

/-- C1: evaluated at the failing input, a poll aborted by external
cancellation ends with terminal status `FAILED` and error
`Job was canceled`, bumping the failed counter — not the `CANCELED`
terminal status the claim asserts. -/
theorem midpoll_cancel_maps_to_failed :
    ((processJob cEnvCancel 600 cJobHttp cStoreHttp {}).map
        fun r => r.outcome) = some (.failedJob "Job was canceled") ∧
    ((processJob cEnvCancel 600 cJobHttp cStoreHttp {}).map
        fun r => (r.stats.failed, r.stats.canceled)) = some (1, 0) ∧
    ((processJob cEnvCancel 600 cJobHttp cStoreHttp {}).map
        fun r => (JobStore.load r.st "j1").map Job.status) =
      some (some JobStatus.failed) ∧
    ((processJob cEnvCancel 600 cJobHttp cStoreHttp {}).map
        fun r => (JobStore.load r.st "j1").map Job.error) =
      some (some (some "Job was canceled")) :=
  ⟨by decide, by decide, by decide, by decide⟩

/-!
## C2: the admission check reads the dequeued snapshot, not the store

`_process_job` tests `job.status`, the in-memory object handed through the
queue. The external cancellation endpoint mutates only the persisted
record (`store.update` builds a fresh object from disk), so a job canceled
between enqueue and dequeue still carries snapshot status `QUEUED`: the
admission check passes, the worker persists `RUNNING` over the `CANCELED`
record, and the job is submitted to the backend and runs to completion.
-/

def c2Snapshot : Job :=
  { id := "j2", status := .queued, created_at := "t0", updated_at := "t0",
    prompt := "p", input_image_url := some "https://example.com/b.png" }

/-- The persisted record at dequeue time: canceled externally. -/
def c2StoreCanceled : Store :=
  JobStore.save [] { c2Snapshot with status := .canceled }

def c2Out : Outputs := [("9", { videos := [{ filename := some "out.mp4" }] })]

def c2Env : ProcEnv :=
  { poll := { elapsed := fun _ => 5, canceledSeen := fun _ => false,
              history := fun _ => .entry c2Out },
    upload := .ok "up.png", loadBaseImage := .ok "W PLACEHOLDER",
    queuePrompt := fun _ => .ok "pid1", fuel := 3, nowAt := fun _ => "t1" }

/-- C2: evaluated at the failing input — persisted status `CANCELED`,
dequeued snapshot still `QUEUED` — the worker does not stop at the
admission check: it persists progress checkpoints (mutating the record),
submits the job (a backend run id is persisted), completes it, and bumps
the success counter; the canceled counter stays 0. -/
theorem canceled_persisted_still_submitted :
    (JobStore.load c2StoreCanceled "j2").map Job.status =
      some JobStatus.canceled ∧
    ((processJob c2Env 600 c2Snapshot c2StoreCanceled {}).map
        fun r => r.outcome) = some (.completedJob ["out.mp4"]) ∧
    ((processJob c2Env 600 c2Snapshot c2StoreCanceled {}).map
        fun r => (r.stats.canceled, r.stats.success)) = some (0, 1) ∧
    ((processJob c2Env 600 c2Snapshot c2StoreCanceled {}).map
        fun r => r.tr.map Job.progress) =
      some [10, 20, 30, 40, 50, 80, 90, 100] ∧
    ((processJob c2Env 600 c2Snapshot c2StoreCanceled {}).map
        fun r => (JobStore.load r.st "j2").map Job.prompt_id) =
      some (some (some "pid1")) ∧
    ((processJob c2Env 600 c2Snapshot c2StoreCanceled {}).map
        fun r => (JobStore.load r.st "j2").map Job.status) =
      some (some JobStatus.completed) :=
  ⟨by decide, by decide, by decide, by decide, by decide, by decide⟩

/-!
## C9: absent `input_image_url` on the default variant
-/

/-- C9: a dequeued job on the default (image) variant with no
`input_image_url` fails in `_stage_input` by dereferencing `None`; the
per-job boundary terminates it as `FAILED` with `error` set and bumps the
failed counter. -/
theorem missing_input_url_fails (env : ProcEnv) (tmo : Nat) (j : Job)
    (st0 : Store) (s : Stats) (j0 : Job)
    (hsong : workflowIsSong j.params = false)
    (hurl : j.input_image_url = none)
    (hnc : ¬ j.status = JobStatus.canceled)
    (hld : JobStore.load st0 j.id = some j0) (hid : j0.id = j.id) :
    ∃ res, processJob env tmo j st0 s = some res ∧
      res.outcome = .failedJob noneUrlMsg ∧
      res.stats = { s with failed := s.failed + 1 } ∧
      ∃ rec, JobStore.load res.st j.id = some rec ∧
        rec.status = .failed ∧ rec.error = some noneUrlMsg := by
  obtain ⟨hd1, hl1, hid1⟩ := doUpdate_spec env j.id
    { status := some .running, progress := some 10 } ⟨st0, 0, []⟩ j0 hld hid
  set j1 := patched j0 { status := some .running, progress := some 10 }
    (env.nowAt 0) with hj1
  have hbp : buildPhase env j
      (doUpdate env j.id { status := some JobStatus.running, progress := some 10 }
        ⟨st0, 0, []⟩) =
      .error (⟨JobStore.save st0 j1, 1, [j1]⟩, noneUrlMsg) := by
    rw [hd1]
    simp [buildPhase, hsong, stageInput, hurl]
  have hpj : processJob env tmo j st0 s =
      some (finishFail env j.id noneUrlMsg ⟨JobStore.save st0 j1, 1, [j1]⟩ s) := by
    unfold processJob
    rw [if_neg hnc]
    simp only [hbp]
  obtain ⟨hd2, hl2, hid2⟩ := doUpdate_spec env j.id
    { status := some .failed, error := some noneUrlMsg }
    ⟨JobStore.save st0 j1, 1, [j1]⟩ j1 hl1 hid1
  refine ⟨_, hpj, rfl, rfl,
    patched j1 { status := some .failed, error := some noneUrlMsg }
      (env.nowAt 1), ?_, rfl, rfl⟩
  show JobStore.load
    (doUpdate env j.id { status := some .failed, error := some noneUrlMsg }
      ⟨JobStore.save st0 j1, 1, [j1]⟩).st j.id = _
  rw [hd2]
  exact hl2

def w9Job : Job :=
  { id := "j9", status := .queued, created_at := "t0", updated_at := "t0",
    prompt := "p", input_image_url := none }

def w9Store : Store := JobStore.save [] w9Job

def w9Env : ProcEnv := { poll := wPollQuiet }

/-- Witness for C9 at a concrete input. -/
theorem missing_input_url_fails_witness :
    ∃ res, processJob w9Env 600 w9Job w9Store {} = some res ∧
      res.outcome = .failedJob noneUrlMsg ∧
      res.stats = { ({} : Stats) with failed := 0 + 1 } ∧
      ∃ rec, JobStore.load res.st w9Job.id = some rec ∧
        rec.status = .failed ∧ rec.error = some noneUrlMsg :=
  missing_input_url_fails w9Env 600 w9Job w9Store {} w9Job rfl rfl
    (by decide) rfl rfl

/-!
## C6: timeout when polling never produces outputs, errors or cancellation
-/

/-- A quiet poll view: no cancellation is ever seen and no history response
can end the poll (transient fetch failures, an absent run, or a run with
empty outputs only). -/
def PollQuiet (pe : PollEnv) : Prop :=
  (∀ i, pe.canceledSeen i = false) ∧
  (∀ i, pe.history i = .fetchError ∨ pe.history i = .missing ∨
    ∃ outs, pe.history i = .entry outs ∧ outs.isEmpty = true)

theorem pollIter_quiet (pe : PollEnv) (tmo i : Nat) (h : PollQuiet pe) :
    pollIter pe tmo i =
      if tmo < pe.elapsed i then some (.timedOutAt (pe.elapsed i))
      else none := by
  obtain ⟨hc, hh⟩ := h
  unfold pollIter
  by_cases he : tmo < pe.elapsed i
  · simp [he]
  · rcases hh i with h2 | h2 | ⟨outs, h2, ho⟩
    · simp [he, hc i, h2]
    · simp [he, hc i, h2]
    · simp [he, hc i, h2, ho]

theorem pollRun_quiet_timeout (pe : PollEnv) (tmo : Nat) (hq : PollQuiet pe) :
    ∀ fuel start, (∃ k, k < fuel ∧ tmo < pe.elapsed (start + k)) →
      ∃ i, start ≤ i ∧ i < start + fuel ∧ tmo < pe.elapsed i ∧
        (∀ m, start ≤ m → m < i → pe.elapsed m ≤ tmo) ∧
        pollForOutputs pe tmo fuel start = some (.timedOutAt (pe.elapsed i)) := by
  intro fuel
  induction fuel with
  | zero =>
    rintro start ⟨k, hk, _⟩
    exact absurd hk (Nat.not_lt_zero k)
  | succ n ih =>
    rintro start ⟨k, hk, hgt⟩
    by_cases he : tmo < pe.elapsed start
    · refine ⟨start, Nat.le_refl _, by omega, he, ?_, ?_⟩
      · intro m hm1 hm2
        omega
      · unfold pollForOutputs
        rw [pollIter_quiet pe tmo start hq]
        simp [he]
    · have hk0 : k ≠ 0 := by
        intro h0
        subst h0
        simp only [Nat.add_zero] at hgt
        exact he hgt
      obtain ⟨i, hi1, hi2, hi3, hi4, hi5⟩ := ih (start + 1)
        ⟨k - 1, by omega, by
          have hs : start + 1 + (k - 1) = start + k := by omega
          rw [hs]
          exact hgt⟩
      refine ⟨i, by omega, by omega, hi3, ?_, ?_⟩
      · intro m hm1 hm2
        rcases Nat.eq_or_lt_of_le hm1 with h | h
        · rw [← h]
          exact Nat.le_of_not_lt he
        · exact hi4 m h hm2
      · unfold pollForOutputs
        rw [pollIter_quiet pe tmo start hq]
        simp [he, hi5]

/-- Under a workable environment the build phase of the pipeline succeeds
and leaves a loadable record. -/
theorem buildPhase_ok (env : ProcEnv) (j : Job) (r0 : StRun) (jr : Job)
    (hstage : ∃ pth, stageInput env j = .ok pth)
    (hup : ∃ u, env.upload = .ok u)
    (hlbS : ∃ t, env.loadBaseSong = .ok t)
    (hlbI : ∃ t, env.loadBaseImage = .ok t)
    (hl : JobStore.load r0.st j.id = some jr) (hid : jr.id = j.id) :
    ∃ r1 wf jx, buildPhase env j r0 = .ok (r1, wf) ∧
      JobStore.load r1.st j.id = some jx ∧ jx.id = j.id := by
  obtain ⟨pth, hst⟩ := hstage
  obtain ⟨u, hu⟩ := hup
  obtain ⟨tS, htS⟩ := hlbS
  obtain ⟨tI, htI⟩ := hlbI
  by_cases hsong : workflowIsSong j.params
  · obtain ⟨hd, hld, hidx⟩ := doUpdate_spec env j.id { progress := some 40 } r0 jr hl hid
    refine ⟨doUpdate env j.id { progress := some 40 } r0,
      applySongOverrides tS (getStrParam j.params "song_description")
        (getStrParam j.params "song_lyrics"),
      patched jr { progress := some 40 } (env.nowAt r0.k), ?_, ?_, hidx⟩
    · unfold buildPhase
      simp only [hsong, if_true, htS]
    · rw [hd]
      exact hld
  · obtain ⟨hd1, hl1, hid1⟩ := doUpdate_spec env j.id { progress := some 20 } r0 jr hl hid
    obtain ⟨hd2, hl2, hid2⟩ := doUpdate_spec env j.id { progress := some 30 }
      (doUpdate env j.id { progress := some 20 } r0)
      (patched jr { progress := some 20 } (env.nowAt r0.k))
      (by rw [hd1]; exact hl1) hid1
    obtain ⟨hd3, hl3, hid3⟩ := doUpdate_spec env j.id { progress := some 40 }
      (doUpdate env j.id { progress := some 30 }
        (doUpdate env j.id { progress := some 20 } r0))
      (patched (patched jr { progress := some 20 } (env.nowAt r0.k))
        { progress := some 30 }
        (env.nowAt (doUpdate env j.id { progress := some 20 } r0).k))
      (by rw [hd2]; exact hl2) hid2
    refine ⟨doUpdate env j.id { progress := some 40 }
        (doUpdate env j.id { progress := some 30 }
          (doUpdate env j.id { progress := some 20 } r0)),
      applyOverrides tI j.prompt (some u),
      patched (patched (patched jr { progress := some 20 } (env.nowAt r0.k))
          { progress := some 30 }
          (env.nowAt (doUpdate env j.id { progress := some 20 } r0).k))
        { progress := some 40 }
        (env.nowAt (doUpdate env j.id { progress := some 30 }
          (doUpdate env j.id { progress := some 20 } r0)).k), ?_, ?_, hid3⟩
    · unfold buildPhase
      simp only [hsong, if_false, hst, hu, htI, Bool.false_eq_true]
    · rw [hd3]
      exact hl3

/-- C6: a job whose polling never reports outputs, never reports a backend
execution error and is never canceled (history fetch failures being retried,
not escalated) transitions to `TIMED_OUT` with `error` set at the first poll
iteration whose elapsed time exceeds the configured timeout, and at no
earlier iteration. -/
theorem quiet_poll_times_out (env : ProcEnv) (tmo : Nat) (j : Job)
    (st0 : Store) (s : Stats) (j0 : Job)
    (hnc : ¬ j.status = JobStatus.canceled)
    (hld : JobStore.load st0 j.id = some j0) (hid : j0.id = j.id)
    (hstage : ∃ pth, stageInput env j = .ok pth)
    (hup : ∃ u, env.upload = .ok u)
    (hlbS : ∃ t, env.loadBaseSong = .ok t)
    (hlbI : ∃ t, env.loadBaseImage = .ok t)
    (hqp : ∀ w, ∃ pid, env.queuePrompt w = .ok pid)
    (hq : PollQuiet env.poll)
    (hterm : ∃ k, k < env.fuel ∧ tmo < env.poll.elapsed k) :
    ∃ i res, (∀ m, m < i → env.poll.elapsed m ≤ tmo) ∧
      tmo < env.poll.elapsed i ∧
      processJob env tmo j st0 s = some res ∧
      res.outcome = .timedOutJob (env.poll.elapsed i) ∧
      res.stats = { s with timed_out := s.timed_out + 1 } ∧
      ∃ rec, JobStore.load res.st j.id = some rec ∧
        rec.status = .timed_out ∧
        rec.error = some (timeoutMsg (env.poll.elapsed i)) := by
  obtain ⟨hd0, hl0, hid0⟩ := doUpdate_spec env j.id
    { status := some .running, progress := some 10 } ⟨st0, 0, []⟩ j0 hld hid
  obtain ⟨r1, wf, jx, hbp, hl1, hid1⟩ := buildPhase_ok env j
    (doUpdate env j.id { status := some .running, progress := some 10 }
      ⟨st0, 0, []⟩)
    (patched j0 { status := some .running, progress := some 10 } (env.nowAt 0))
    hstage hup hlbS hlbI (by rw [hd0]; exact hl0) hid0
  obtain ⟨pid, hpid⟩ := hqp wf
  obtain ⟨i, hi1, hi2, hi3, hi4, hi5⟩ := pollRun_quiet_timeout env.poll tmo hq
    env.fuel 0 (by simpa using hterm)
  obtain ⟨hd2, hl2, hid2⟩ := doUpdate_spec env j.id
    { prompt_id := some pid, progress := some 50 } r1 jx hl1 hid1
  obtain ⟨hd3, hl3, hid3⟩ := doUpdate_spec env j.id
    { status := some .timed_out, error := some (timeoutMsg (env.poll.elapsed i)) }
    (doUpdate env j.id { prompt_id := some pid, progress := some 50 } r1)
    (patched jx { prompt_id := some pid, progress := some 50 } (env.nowAt r1.k))
    (by rw [hd2]; exact hl2) hid2
  refine ⟨i,
    ⟨(doUpdate env j.id
        { status := some .timed_out,
          error := some (timeoutMsg (env.poll.elapsed i)) }
        (doUpdate env j.id { prompt_id := some pid, progress := some 50 } r1)).st,
      { s with timed_out := s.timed_out + 1 },
      (doUpdate env j.id
        { status := some .timed_out,
          error := some (timeoutMsg (env.poll.elapsed i)) }
        (doUpdate env j.id { prompt_id := some pid, progress := some 50 } r1)).tr,
      [], .timedOutJob (env.poll.elapsed i)⟩,
    fun m hm => hi4 m (Nat.zero_le m) hm, hi3, ?_, rfl, rfl, ?_⟩
  · unfold processJob
    rw [if_neg hnc]
    simp only [hbp, hpid, hi5]
  · refine ⟨patched (patched jx { prompt_id := some pid, progress := some 50 }
        (env.nowAt r1.k))
      { status := some .timed_out,
        error := some (timeoutMsg (env.poll.elapsed i)) }
      (env.nowAt (doUpdate env j.id
        { prompt_id := some pid, progress := some 50 } r1).k), ?_, rfl, rfl⟩
    rw [hd3]
    exact hl3

def w6Job : Job :=
  { id := "j6", status := .queued, created_at := "t0", updated_at := "t0",
    prompt := "p", input_image_url := some "https://example.com/c.png" }

def w6Store : Store := JobStore.save [] w6Job

def w6Env : ProcEnv :=
  { poll := { elapsed := fun i => 301 * i, canceledSeen := fun _ => false,
              history := fun _ => .missing },
    fuel := 4, nowAt := fun _ => "t1" }

/-- Witness for C6 at a concrete input: elapsed times 0, 301, 602, ... with
a 600-second budget time out at the third iteration, not before. -/
theorem quiet_poll_times_out_witness :
    ∃ i res, (∀ m, m < i → w6Env.poll.elapsed m ≤ 600) ∧
      600 < w6Env.poll.elapsed i ∧
      processJob w6Env 600 w6Job w6Store {} = some res ∧
      res.outcome = .timedOutJob (w6Env.poll.elapsed i) ∧
      res.stats = { ({} : Stats) with timed_out := 0 + 1 } ∧
      ∃ rec, JobStore.load res.st w6Job.id = some rec ∧
        rec.status = .timed_out ∧
        rec.error = some (timeoutMsg (w6Env.poll.elapsed i)) :=
  quiet_poll_times_out w6Env 600 w6Job w6Store {} w6Job
    (by decide) rfl rfl ⟨"input.png", rfl⟩ ⟨"input.png", rfl⟩ ⟨"", rfl⟩
    ⟨"", rfl⟩ (fun _ => ⟨"pid", rfl⟩)
    ⟨fun _ => rfl, fun _ => Or.inr (Or.inl rfl)⟩ ⟨2, by decide, by decide⟩

/-!
## C8: delivery failure does not touch the completed job
-/

/-- C8: on a successful pipeline run, whatever the delivery configuration
and however the delivery targets behave — in particular when the
notification send raises, when the webhook POST raises, or both — the job
still ends `COMPLETED` with progress 100 and its downloaded files intact,
and the success counter is incremented exactly once with no failure
counter moving. A raising notification send and a raising webhook POST
each leave only a logged failure event. -/
theorem delivery_failure_keeps_completed (env : ProcEnv) (tmo : Nat) (j : Job)
    (st0 : Store) (s : Stats) (j0 : Job) (outs : Outputs) (fs : List String)
    (hnc : ¬ j.status = JobStatus.canceled)
    (hld : JobStore.load st0 j.id = some j0) (hid : j0.id = j.id)
    (hstage : ∃ pth, stageInput env j = .ok pth)
    (hup : ∃ u, env.upload = .ok u)
    (hlbS : ∃ t, env.loadBaseSong = .ok t)
    (hlbI : ∃ t, env.loadBaseImage = .ok t)
    (hqp : ∀ w, ∃ pid, env.queuePrompt w = .ok pid)
    (hpf : pollForOutputs env.poll tmo env.fuel 0 = some (.found outs))
    (hdl : downloadOutputs env.download outs = .ok fs) :
    ∃ res, processJob env tmo j st0 s = some res ∧
      res.outcome = .completedJob fs ∧
      res.stats = { s with success := s.success + 1 } ∧
      ∃ rec, JobStore.load res.st j.id = some rec ∧
        rec.status = .completed ∧ rec.progress = 100 ∧ rec.files = fs ∧
        (∀ mTg, env.hasTelegramFunc = true →
          truthy j.telegram_chat_id = true →
          env.telegramSend rec = .error mTg →
          DeliveryEvent.telegramFailed mTg ∈ res.events) ∧
        (∀ mWh, truthy j.webhook_url = true →
          env.webhookPost (j.webhook_url.getD "") (webhookPayload rec) =
            .error mWh →
          DeliveryEvent.webhookFailed mWh ∈ res.events) := by
  obtain ⟨hd0, hl0, hid0⟩ := doUpdate_spec env j.id
    { status := some .running, progress := some 10 } ⟨st0, 0, []⟩ j0 hld hid
  obtain ⟨r1, wf, jx, hbp, hl1, hid1⟩ := buildPhase_ok env j
    (doUpdate env j.id { status := some .running, progress := some 10 }
      ⟨st0, 0, []⟩)
    (patched j0 { status := some .running, progress := some 10 } (env.nowAt 0))
    hstage hup hlbS hlbI (by rw [hd0]; exact hl0) hid0
  obtain ⟨pid, hpid⟩ := hqp wf
  obtain ⟨hd2, hl2, hid2⟩ := doUpdate_spec env j.id
    { prompt_id := some pid, progress := some 50 } r1 jx hl1 hid1
  obtain ⟨hd3, hl3, hid3⟩ := doUpdate_spec env j.id { progress := some 80 }
    (doUpdate env j.id { prompt_id := some pid, progress := some 50 } r1)
    (patched jx { prompt_id := some pid, progress := some 50 } (env.nowAt r1.k))
    (by rw [hd2]; exact hl2) hid2
  obtain ⟨hd4, hl4, hid4⟩ := doUpdate_spec env j.id { progress := some 90 }
    (doUpdate env j.id { progress := some 80 }
      (doUpdate env j.id { prompt_id := some pid, progress := some 50 } r1))
    _ (by rw [hd3]; exact hl3) hid3
  obtain ⟨hd5, hl5, hid5⟩ := doUpdate_spec env j.id
    { status := some .completed, progress := some 100, files := some fs }
    (doUpdate env j.id { progress := some 90 }
      (doUpdate env j.id { progress := some 80 }
        (doUpdate env j.id { prompt_id := some pid, progress := some 50 } r1)))
    _ (by rw [hd4]; exact hl4) hid4
  refine ⟨⟨(doUpdate env j.id
      { status := some .completed, progress := some 100, files := some fs }
      (doUpdate env j.id { progress := some 90 }
        (doUpdate env j.id { progress := some 80 }
          (doUpdate env j.id { prompt_id := some pid, progress := some 50 }
            r1)))).st,
    { s with success := s.success + 1 },
    (doUpdate env j.id
      { status := some .completed, progress := some 100, files := some fs }
      (doUpdate env j.id { progress := some 90 }
        (doUpdate env j.id { progress := some 80 }
          (doUpdate env j.id { prompt_id := some pid, progress := some 50 }
            r1)))).tr,
    deliver env j (doUpdate env j.id
      { status := some .completed, progress := some 100, files := some fs }
      (doUpdate env j.id { progress := some 90 }
        (doUpdate env j.id { progress := some 80 }
          (doUpdate env j.id { prompt_id := some pid, progress := some 50 }
            r1)))).st,
    .completedJob fs⟩, ?_, rfl, rfl, ?_⟩
  · unfold processJob
    rw [if_neg hnc]
    simp only [hbp, hpid, hpf, hdl]
  · rw [hd5]
    refine ⟨_, hl5, rfl, rfl, rfl, ?_, ?_⟩
    · intro mTg htgOn htc hsend
      simp [deliver, htgOn, htc, hl5, hsend]
    · intro mWh hwu hpost
      simp [deliver, hwu, hl5, hpost]

def w8Job : Job :=
  { id := "j8", status := .queued, created_at := "t0", updated_at := "t0",
    prompt := "p", input_image_url := some "https://example.com/d.png",
    telegram_chat_id := some "chat7",
    webhook_url := some "https://example.com/hook" }

def w8Store : Store := JobStore.save [] w8Job

def w8Out : Outputs :=
  [("9", { videos := [{ filename := some "a.mp4" }],
           audio := [{ filename := some "b.mp3" }] })]

def w8Env : ProcEnv :=
  { poll := { elapsed := fun _ => 0, canceledSeen := fun _ => false,
              history := fun _ => .entry w8Out },
    fuel := 2, nowAt := fun _ => "t1",
    hasTelegramFunc := true,
    telegramSend := fun _ => .error "unreachable",
    webhookPost := fun _ _ => .error "http 500" }

/-- Witness for C8 at a concrete input: one video and one audio output,
an unreachable Telegram target and a webhook endpoint whose POST raises. -/
theorem delivery_failure_keeps_completed_witness :
    ∃ res, processJob w8Env 600 w8Job w8Store {} = some res ∧
      res.outcome = .completedJob ["a.mp4", "b.mp3"] ∧
      res.stats = { ({} : Stats) with success := 0 + 1 } ∧
      ∃ rec, JobStore.load res.st w8Job.id = some rec ∧
        rec.status = .completed ∧ rec.progress = 100 ∧
        rec.files = ["a.mp4", "b.mp3"] ∧
        (∀ mTg, w8Env.hasTelegramFunc = true →
          truthy w8Job.telegram_chat_id = true →
          w8Env.telegramSend rec = .error mTg →
          DeliveryEvent.telegramFailed mTg ∈ res.events) ∧
        (∀ mWh, truthy w8Job.webhook_url = true →
          w8Env.webhookPost (w8Job.webhook_url.getD "")
            (webhookPayload rec) = .error mWh →
          DeliveryEvent.webhookFailed mWh ∈ res.events) :=
  delivery_failure_keeps_completed w8Env 600 w8Job w8Store {} w8Job w8Out
    ["a.mp4", "b.mp3"] (by decide) rfl rfl ⟨"input.png", rfl⟩
    ⟨"input.png", rfl⟩ ⟨"", rfl⟩ ⟨"", rfl⟩ (fun _ => ⟨"pid", rfl⟩) rfl rfl

/-!
## C5: monotone persisted progress; 100 only on the COMPLETED persist
-/

/-- The invariant of a persisted-record trace: progress values never
decrease, and a record is persisted with progress 100 only when its status
is `COMPLETED`. -/
def TrInv (tr : List Job) : Prop :=
  List.Chain' (fun a b => a.progress ≤ b.progress) tr ∧
  ∀ rec ∈ tr, rec.progress = 100 → rec.status = JobStatus.completed

/-- The running invariant of the worker's state: the trace invariant, and
the stored record (when it exists, with a well-formed id) carries progress
`cur` and is the most recent trace entry. -/
def RInv (id : String) (r : StRun) (cur : Nat) : Prop :=
  TrInv r.tr ∧
  ((JobStore.load r.st id = none ∧ r.tr = []) ∨
   (∃ rec, JobStore.load r.st id = some rec ∧ rec.id = id ∧
      rec.progress = cur ∧ (r.tr = [] ∨ r.tr.getLast? = some rec)))

theorem TrInv.final (tr : List Job) (h : TrInv tr) :
    List.Chain' (fun a b : Nat => a ≤ b) (tr.map Job.progress) ∧
    ∀ rec ∈ tr, rec.progress = 100 → rec.status = JobStatus.completed :=
  ⟨(List.chain'_map Job.progress).mpr h.1, h.2⟩

theorem RInv.init (id : String) (st : Store)
    (hwf : ∀ rec, JobStore.load st id = some rec → rec.id = id) :
    ∃ cur, RInv id ⟨st, 0, []⟩ cur := by
  cases hl : JobStore.load st id with
  | none => exact ⟨0, ⟨List.chain'_nil, by simp⟩, Or.inl ⟨hl, rfl⟩⟩
  | some rec =>
    exact ⟨rec.progress, ⟨List.chain'_nil, by simp⟩,
      Or.inr ⟨rec, hl, hwf rec hl, rfl, Or.inl rfl⟩⟩

theorem RInv.update_prog (env : ProcEnv) (id : String) (p : Patch) (r : StRun)
    (cur q : Nat) (hp : p.progress = some q)
    (h100 : q = 100 → p.status = some JobStatus.completed)
    (hle : r.tr = [] ∨ cur ≤ q) (h : RInv id r cur) :
    RInv id (doUpdate env id p r) q := by
  obtain ⟨⟨hch, h100t⟩, hst⟩ := h
  rcases hst with ⟨hnone, htre⟩ | ⟨rec, hload, hid, hprog, hlast⟩
  · rw [doUpdate_missing env id p r hnone]
    exact ⟨⟨hch, h100t⟩, Or.inl ⟨hnone, htre⟩⟩
  · obtain ⟨hd, hl, hid2⟩ := doUpdate_spec env id p r rec hload hid
    rw [hd]
    have hpq : (patched rec p (env.nowAt r.k)).progress = q := by
      simp [patched, applyPatch, hp]
    refine ⟨⟨?_, ?_⟩, Or.inr ⟨patched rec p (env.nowAt r.k), hl, hid2, hpq,
      Or.inr ?_⟩⟩
    · rw [List.chain'_append]
      refine ⟨hch, List.chain'_singleton _, ?_⟩
      intro x hx y hy
      have htrne : r.tr ≠ [] := by
        intro h0
        rw [h0] at hx
        simp at hx
      have hle2 : cur ≤ q := by
        rcases hle with h0 | h0
        · exact absurd h0 htrne
        · exact h0
      rcases hlast with h0 | hlast2
      · exact absurd h0 htrne
      rw [hlast2] at hx
      simp at hx hy
      subst hx
      subst hy
      rw [hpq, hprog]
      exact hle2
    · intro rec2 hmem h100p
      rcases List.mem_append.mp hmem with hold | hnew
      · exact h100t rec2 hold h100p
      · simp at hnew
        subst hnew
        rw [hpq] at h100p
        simp [patched, applyPatch, h100 h100p]
    · rw [List.getLast?_append_cons]
      rfl

theorem RInv.update_noprog (env : ProcEnv) (id : String) (p : Patch)
    (r : StRun) (cur : Nat) (hp : p.progress = none) (hcur : ¬ cur = 100)
    (h : RInv id r cur) : RInv id (doUpdate env id p r) cur := by
  obtain ⟨⟨hch, h100t⟩, hst⟩ := h
  rcases hst with ⟨hnone, htre⟩ | ⟨rec, hload, hid, hprog, hlast⟩
  · rw [doUpdate_missing env id p r hnone]
    exact ⟨⟨hch, h100t⟩, Or.inl ⟨hnone, htre⟩⟩
  · obtain ⟨hd, hl, hid2⟩ := doUpdate_spec env id p r rec hload hid
    rw [hd]
    have hpq : (patched rec p (env.nowAt r.k)).progress = cur := by
      simp [patched, applyPatch, hp, hprog]
    refine ⟨⟨?_, ?_⟩, Or.inr ⟨patched rec p (env.nowAt r.k), hl, hid2, hpq,
      Or.inr ?_⟩⟩
    · rw [List.chain'_append]
      refine ⟨hch, List.chain'_singleton _, ?_⟩
      intro x hx y hy
      have htrne : r.tr ≠ [] := by
        intro h0
        rw [h0] at hx
        simp at hx
      rcases hlast with h0 | hlast2
      · exact absurd h0 htrne
      rw [hlast2] at hx
      simp at hx hy
      subst hx
      subst hy
      rw [hpq, hprog]
    · intro rec2 hmem h100p
      rcases List.mem_append.mp hmem with hold | hnew
      · exact h100t rec2 hold h100p
      · simp at hnew
        subst hnew
        rw [hpq] at h100p
        exact absurd h100p hcur
    · rw [List.getLast?_append_cons]
      rfl

theorem buildPhase_rinv (env : ProcEnv) (j : Job) (r0 : StRun)
    (h : RInv j.id r0 10) :
    (∀ r1 m, buildPhase env j r0 = .error (r1, m) →
        ∃ c, c ≤ 40 ∧ RInv j.id r1 c) ∧
    (∀ r1 wf, buildPhase env j r0 = .ok (r1, wf) → RInv j.id r1 40) := by
  unfold buildPhase
  by_cases hsong : workflowIsSong j.params = true
  · rw [if_pos hsong]
    cases hlb : env.loadBaseSong with
    | error m2 =>
      constructor
      · intro r1 m hbp
        injection hbp with h2
        injection h2 with ha hb
        subst ha
        exact ⟨10, by omega, h⟩
      · intro r1 wf hbp
        exact Except.noConfusion hbp
    | ok t =>
      constructor
      · intro r1 m hbp
        exact Except.noConfusion hbp
      · intro r1 wf hbp
        injection hbp with h2
        injection h2 with ha hb
        subst ha
        exact RInv.update_prog env j.id _ r0 10 40 rfl
          (fun hq => absurd hq (by omega)) (Or.inr (by omega)) h
  · rw [if_neg hsong]
    cases hst : stageInput env j with
    | error m2 =>
      constructor
      · intro r1 m hbp
        injection hbp with h2
        injection h2 with ha hb
        subst ha
        exact ⟨10, by omega, h⟩
      · intro r1 wf hbp
        exact Except.noConfusion hbp
    | ok pth =>
      have h20 : RInv j.id (doUpdate env j.id { progress := some 20 } r0) 20 :=
        RInv.update_prog env j.id _ r0 10 20 rfl
          (fun hq => absurd hq (by omega)) (Or.inr (by omega)) h
      cases hu : env.upload with
      | error m2 =>
        constructor
        · intro r1 m hbp
          injection hbp with h2
          injection h2 with ha hb
          subst ha
          exact ⟨20, by omega, h20⟩
        · intro r1 wf hbp
          exact Except.noConfusion hbp
      | ok u =>
        have h30 : RInv j.id (doUpdate env j.id { progress := some 30 }
            (doUpdate env j.id { progress := some 20 } r0)) 30 :=
          RInv.update_prog env j.id _ _ 20 30 rfl
            (fun hq => absurd hq (by omega)) (Or.inr (by omega)) h20
        cases hlbI : env.loadBaseImage with
        | error m2 =>
          constructor
          · intro r1 m hbp
            injection hbp with h2
            injection h2 with ha hb
            subst ha
            exact ⟨30, by omega, h30⟩
          · intro r1 wf hbp
            exact Except.noConfusion hbp
        | ok t =>
          constructor
          · intro r1 m hbp
            exact Except.noConfusion hbp
          · intro r1 wf hbp
            injection hbp with h2
            injection h2 with ha hb
            subst ha
            exact RInv.update_prog env j.id _ _ 30 40 rfl
              (fun hq => absurd hq (by omega)) (Or.inr (by omega)) h30

/-- C5: over one job's processing, the sequence of records the worker
persists carries monotonically non-decreasing progress values, and a
record is persisted with progress exactly 100 only in the persist that
also sets status `COMPLETED` — no other terminal status ever carries
progress 100. -/
theorem progress_monotone (env : ProcEnv) (tmo : Nat) (j : Job) (st0 : Store)
    (s : Stats) (res : ProcResult)
    (hwf : ∀ rec, JobStore.load st0 j.id = some rec → rec.id = j.id)
    (h : processJob env tmo j st0 s = some res) :
    List.Chain' (fun a b : Nat => a ≤ b) (res.tr.map Job.progress) ∧
    ∀ rec ∈ res.tr, rec.progress = 100 → rec.status = JobStatus.completed := by
  unfold processJob at h
  by_cases hc : j.status = JobStatus.canceled
  · rw [if_pos hc] at h
    injection h with h2
    subst h2
    exact ⟨List.chain'_nil, by simp⟩
  · rw [if_neg hc] at h
    obtain ⟨cur0, h0⟩ := RInv.init j.id st0 hwf
    have h10 : RInv j.id (doUpdate env j.id
        { status := some .running, progress := some 10 } ⟨st0, 0, []⟩) 10 :=
      RInv.update_prog env j.id _ _ cur0 10 rfl
        (fun hq => absurd hq (by omega)) (Or.inl rfl) h0
    obtain ⟨hbpErr, hbpOk⟩ := buildPhase_rinv env j _ h10
    cases hbp : buildPhase env j (doUpdate env j.id
        { status := some .running, progress := some 10 } ⟨st0, 0, []⟩) with
    | error e =>
      obtain ⟨r1, m⟩ := e
      obtain ⟨c, hc40, hr1⟩ := hbpErr r1 m hbp
      simp only [hbp] at h
      injection h with h2
      subst h2
      have hfin := RInv.update_noprog env j.id
        { status := some .failed, error := some m } r1 c rfl (by omega) hr1
      exact TrInv.final _ hfin.1
    | ok pr =>
      obtain ⟨r1, wf⟩ := pr
      have hr1 := hbpOk r1 wf hbp
      simp only [hbp] at h
      cases hqp : env.queuePrompt wf with
      | error m =>
        simp only [hqp] at h
        injection h with h2
        subst h2
        have hfin := RInv.update_noprog env j.id
          { status := some .failed, error := some m } r1 40 rfl (by omega) hr1
        exact TrInv.final _ hfin.1
      | ok pid =>
        simp only [hqp] at h
        have hr2 : RInv j.id (doUpdate env j.id
            { prompt_id := some pid, progress := some 50 } r1) 50 :=
          RInv.update_prog env j.id _ r1 40 50 rfl
            (fun hq => absurd hq (by omega)) (Or.inr (by omega)) hr1
        cases hpoll : pollForOutputs env.poll tmo env.fuel 0 with
        | none =>
          simp only [hpoll] at h
          exact Option.noConfusion h
        | some pr2 =>
          cases pr2 with
          | timedOutAt e =>
            simp only [hpoll] at h
            injection h with h2
            subst h2
            have hfin := RInv.update_noprog env j.id
              { status := some .timed_out, error := some (timeoutMsg e) } _
              50 rfl (by omega) hr2
            exact TrInv.final _ hfin.1
          | canceledExc =>
            simp only [hpoll] at h
            injection h with h2
            subst h2
            have hfin := RInv.update_noprog env j.id
              { status := some .failed, error := some "Job was canceled" } _
              50 rfl (by omega) hr2
            exact TrInv.final _ hfin.1
          | comfyError m =>
            simp only [hpoll] at h
            injection h with h2
            subst h2
            have hfin := RInv.update_noprog env j.id
              { status := some .failed, error := some ("ComfyUI error: " ++ m) }
              _ 50 rfl (by omega) hr2
            exact TrInv.final _ hfin.1
          | found outs =>
            simp only [hpoll] at h
            have hr3 : RInv j.id (doUpdate env j.id { progress := some 80 }
                (doUpdate env j.id
                  { prompt_id := some pid, progress := some 50 } r1)) 80 :=
              RInv.update_prog env j.id _ _ 50 80 rfl
                (fun hq => absurd hq (by omega)) (Or.inr (by omega)) hr2
            cases hdl : downloadOutputs env.download outs with
            | error m =>
              simp only [hdl] at h
              injection h with h2
              subst h2
              have hfin := RInv.update_noprog env j.id
                { status := some .failed, error := some m } _ 80 rfl
                (by omega) hr3
              exact TrInv.final _ hfin.1
            | ok fs =>
              simp only [hdl] at h
              injection h with h2
              subst h2
              have hr4 : RInv j.id (doUpdate env j.id { progress := some 90 }
                  (doUpdate env j.id { progress := some 80 }
                    (doUpdate env j.id
                      { prompt_id := some pid, progress := some 50 } r1)))
                  90 :=
                RInv.update_prog env j.id _ _ 80 90 rfl
                  (fun hq => absurd hq (by omega)) (Or.inr (by omega)) hr3
              have hr5 := RInv.update_prog env j.id
                { status := some .completed, progress := some 100,
                  files := some fs } _ 90 100 rfl (fun _ => rfl)
                (Or.inr (by omega)) hr4
              exact TrInv.final _ hr5.1

def w5Env : ProcEnv := { poll := wPollQuiet }

def w5Job : Job :=
  { id := "j5", status := .queued, created_at := "t0", updated_at := "t0",
    prompt := "p", input_image_url := none }

def w5Store : Store := JobStore.save [] w5Job

/-- Witness for C5 at a concrete input: the run that fails on the missing
input URL persists a monotone progress sequence with no progress-100
record. -/
theorem progress_monotone_witness :
    ∃ res, processJob w5Env 600 w5Job w5Store {} = some res ∧
      List.Chain' (fun a b : Nat => a ≤ b) (res.tr.map Job.progress) ∧
      ∀ rec ∈ res.tr, rec.progress = 100 →
        rec.status = JobStatus.completed := by
  have hs : (processJob w5Env 600 w5Job w5Store {}).isSome = true := by decide
  obtain ⟨res, hres⟩ := Option.isSome_iff_exists.mp hs
  obtain ⟨h1, h2⟩ := progress_monotone w5Env 600 w5Job w5Store {} res
    (fun rec h2 => by
      rw [show JobStore.load w5Store w5Job.id = some w5Job from rfl] at h2
      injection h2 with h3
      rw [← h3]) hres
  exact ⟨res, hres, h1, h2⟩
